import Mathlib

/-!
# A shallow embedding of the walnut ID3v2.4 decoder

This file embeds the core of the `walnut` ID3 tag decoder (files
`src/id3/mod.rs` and `src/id3/v24.rs`) into Lean 4 and proves properties
of the embedded functions.

Modelling conventions:

* Bytes are `Nat` values; byte buffers are `List Nat`.  All reads performed
  by the source on in-bounds indices are modelled with `List.getD`; every
  read or slice the source performs without an a-priori bounds guarantee is
  modelled with an explicit bounds check whose failure is a `panic` outcome,
  mirroring the panicking behaviour of Rust slice indexing.
* Fallible Rust functions returning `Result` are modelled with the
  three-valued outcome type `Res`, whose third value `panic` models a Rust
  panic (index out of bounds, `unimplemented!`, or library UB).
* Decoded Rust `String` values are modelled as Lean `String`; `HashMap`
  is modelled as an insertion list with replace-on-duplicate semantics
  (the only map operation the source performs is `insert`).
* The host is assumed little-endian: `std::ptr::copy_nonoverlapping` of a
  byte buffer into a `u16` buffer (the no-BOM/LE-BOM branch of the UTF-16
  segment decoder) reinterprets each byte pair as a little-endian code unit.
-/

/-- Outcome of a fallible Rust computation: `Ok`, `Err`, or a panic. -/
inductive Res (ε : Type) (α : Type) where
  | ok (a : α)
  | err (e : ε)
  | panic
  deriving DecidableEq, Repr

namespace Res

def bind {ε α β : Type} : Res ε α → (α → Res ε β) → Res ε β
  | .ok a, f => f a
  | .err e, _ => .err e
  | .panic, _ => .panic

def map {ε α β : Type} (f : α → β) : Res ε α → Res ε β
  | .ok a => .ok (f a)
  | .err e => .err e
  | .panic => .panic

def mapErr {ε ε' α : Type} (f : ε → ε') : Res ε α → Res ε' α
  | .ok a => .ok a
  | .err e => .err (f e)
  | .panic => .panic

end Res

/-- `&buf[a..b]` on a byte buffer, for indices already known in bounds. -/
def subslice (l : List Nat) (a b : Nat) : List Nat :=
  (l.drop a).take (b - a)

/-- `BigEndian::read_u16(&buf[i..i+2])`. -/
def read_u16_be (l : List Nat) (i : Nat) : Nat :=
  (l.getD i 0) * 0x100 + l.getD (i + 1) 0

/-- `BigEndian::read_u32(&buf[i..i+4])`. -/
def read_u32_be (l : List Nat) (i : Nat) : Nat :=
  (l.getD i 0) * 0x1000000 + (l.getD (i + 1) 0) * 0x10000 +
    (l.getD (i + 2) 0) * 0x100 + l.getD (i + 3) 0

/-- `fn synchsafe_u32_to_u32(sync_int: u32) -> u32` from `src/id3/mod.rs`:
packs the low seven bits of each of the four bytes of a synchsafe integer
into a 28-bit value. -/
def synchsafe_u32_to_u32 (sync_int : Nat) : Nat :=
  let low := (sync_int &&& 0x000000ff) ||| (sync_int &&& 0x00000100) >>> 1
  let mid_low := (sync_int &&& 0x0000fe00) >>> 1 ||| (sync_int &&& 0x00030000) >>> 2
  let mid_high := (sync_int &&& 0x00fc0000) >>> 2 ||| (sync_int &&& 0x07000000) >>> 3
  let high := (sync_int &&& 0xf8000000) >>> 3
  high ||| mid_high ||| mid_low ||| low

/-! ## Text encodings (`src/id3/v24.rs`) -/

/-- `enum TextDecodeError`. -/
inductive TextDecodeError where
  | InvalidUtf16
  | InvalidUtf8
  | UnknownEncoding (v : Nat)
  deriving DecidableEq, Repr

/-- `enum TextEncoding`. -/
inductive TextEncoding where
  | ISO8859
  | UTF16BOM
  | UTF16BE
  | UTF8
  deriving DecidableEq, Repr

/-- `impl TryFrom<u8> for TextEncoding`. -/
def TextEncoding.try_from (v : Nat) : Res TextDecodeError TextEncoding :=
  match v with
  | 0 => .ok .ISO8859
  | 1 => .ok .UTF16BOM
  | 2 => .ok .UTF16BE
  | 3 => .ok .UTF8
  | _ => .err (.UnknownEncoding v)

/-- `TextEncoding::has_two_trailing_nulls`. -/
def TextEncoding.has_two_trailing_nulls : TextEncoding → Bool
  | .UTF16BOM => true
  | .UTF16BE => true
  | _ => false

/-- `TextEncoding::get_trailing_null_slice`. -/
def TextEncoding.get_trailing_null_slice (e : TextEncoding) : List Nat :=
  if e.has_two_trailing_nulls then [0, 0] else [0]

/-- Decode a list of UTF-16 code units into characters, validating surrogate
pairs exactly as Rust `String::from_utf16` does; `none` models
`FromUtf16Error`. -/
def utf16_chars : List Nat → Option (List Char)
  | [] => some []
  | u :: rest =>
    if u < 0xD800 || 0xE000 ≤ u then
      (utf16_chars rest).map (fun cs => Char.ofNat u :: cs)
    else if u < 0xDC00 then
      match rest with
      | [] => none
      | v :: rest2 =>
        if 0xDC00 ≤ v && v < 0xE000 then
          (utf16_chars rest2).map
            (fun cs => Char.ofNat (0x10000 + (u - 0xD800) * 0x400 + (v - 0xDC00)) :: cs)
        else none
    else none

/-- Rust `String::from_utf16`. -/
def string_from_utf16 (units : List Nat) : Res TextDecodeError String :=
  match utf16_chars units with
  | some cs => .ok ⟨cs⟩
  | none => .err .InvalidUtf16

/-- Decode a UTF-8 byte list into characters with the strict validation of
Rust `std::str::from_utf8`; `none` models `Utf8Error`. -/
def utf8_chars : List Nat → Option (List Char)
  | [] => some []
  | b :: rest =>
    if b < 0x80 then
      (utf8_chars rest).map (fun cs => Char.ofNat b :: cs)
    else if b < 0xC2 then none
    else if b < 0xE0 then
      match rest with
      | b1 :: rest1 =>
        if 0x80 ≤ b1 && b1 < 0xC0 then
          (utf8_chars rest1).map
            (fun cs => Char.ofNat ((b - 0xC0) * 0x40 + (b1 - 0x80)) :: cs)
        else none
      | _ => none
    else if b < 0xF0 then
      match rest with
      | b1 :: b2 :: rest2 =>
        if (if b = 0xE0 then 0xA0 ≤ b1 && b1 < 0xC0
            else if b = 0xED then 0x80 ≤ b1 && b1 < 0xA0
            else 0x80 ≤ b1 && b1 < 0xC0) && (0x80 ≤ b2 && b2 < 0xC0) then
          (utf8_chars rest2).map
            (fun cs =>
              Char.ofNat ((b - 0xE0) * 0x1000 + (b1 - 0x80) * 0x40 + (b2 - 0x80)) :: cs)
        else none
      | _ => none
    else if b < 0xF5 then
      match rest with
      | b1 :: b2 :: b3 :: rest3 =>
        if (if b = 0xF0 then 0x90 ≤ b1 && b1 < 0xC0
            else if b = 0xF4 then 0x80 ≤ b1 && b1 < 0x90
            else 0x80 ≤ b1 && b1 < 0xC0) &&
           (0x80 ≤ b2 && b2 < 0xC0) && (0x80 ≤ b3 && b3 < 0xC0) then
          (utf8_chars rest3).map
            (fun cs =>
              Char.ofNat ((b - 0xF0) * 0x40000 + (b1 - 0x80) * 0x1000 +
                (b2 - 0x80) * 0x40 + (b3 - 0x80)) :: cs)
        else none
      | _ => none
    else none

/-- The non-overlapping byte pairs of a buffer (`chunks(2)` on a buffer of
even length). -/
def byte_pairs : List Nat → List (Nat × Nat)
  | a :: b :: rest => (a, b) :: byte_pairs rest
  | _ => []

/-- The erroneous big-endian code-unit reassembly in the source:
`buffer[i] = (u16::from(c[1]) << 8) & u16::from(c[0])` (bitwise AND of
disjoint bit ranges, hence always zero). -/
def be_unit_and (c : Nat × Nat) : Nat :=
  (c.2 <<< 8) &&& c.1

/-- `std::ptr::copy_nonoverlapping` of a byte pair into a `u16` on a
little-endian host: the first byte is the low byte. -/
def le_unit (c : Nat × Nat) : Nat :=
  c.1 ||| (c.2 <<< 8)

/-- `fn decode_text_segment(encoding: TextEncoding, text_slice: &[u8])`.
The `UTF16BOM` arm indexes `text_slice[0..2]` after the parity check, which
panics on an empty slice; `buffer[1..]` drops the first code unit. -/
def decode_text_segment (encoding : TextEncoding) (text_slice : List Nat) :
    Res TextDecodeError String :=
  match encoding with
  | .ISO8859 => .ok ⟨text_slice.map Char.ofNat⟩
  | .UTF16BOM =>
    if text_slice.length % 2 ≠ 0 then .err .InvalidUtf16
    else if text_slice.length < 2 then .panic
    else if text_slice.take 2 = [0xFE, 0xFF] then
      string_from_utf16 (((byte_pairs text_slice).map be_unit_and).drop 1)
    else
      string_from_utf16 (((byte_pairs text_slice).map le_unit).drop 1)
  | .UTF16BE =>
    if text_slice.length % 2 ≠ 0 then .err .InvalidUtf16
    else string_from_utf16 ((byte_pairs text_slice).map be_unit_and)
  | .UTF8 =>
    match utf8_chars text_slice with
    | some cs => .ok ⟨cs⟩
    | none => .err .InvalidUtf8

/-- `text_slice.chunks_exact(separator.len()).position(|x| x == separator).map(|x| x * separator.len())`:
byte position of the first complete aligned chunk equal to the
separator. -/
def find_term (separator : List Nat) (l : List Nat) : Option Nat :=
  ((List.range (l.length / separator.length)).find? fun i =>
      decide (subslice l (i * separator.length) ((i + 1) * separator.length) = separator)).map
    (· * separator.length)

/-- The `while let` loop of `fn decode_text_segments`: pop one
null-terminated segment per iteration, then decode any residual bytes as a
final segment.  The loop consumes at least one byte per iteration, so the
explicit bound (`fuel`) never runs out when it starts at
`text_slice.length + 1`; see `decode_text_segments_loop_fuel`. -/
def decode_text_segments_loop (encoding : TextEncoding) :
    Nat → List Nat → Res TextDecodeError (List String)
  | 0, _ => .panic
  | fuel + 1, text_slice =>
    let separator := encoding.get_trailing_null_slice
    match find_term separator text_slice with
    | some pos =>
      (decode_text_segment encoding (text_slice.take pos)).bind fun seg =>
        (decode_text_segments_loop encoding fuel
            (text_slice.drop (pos + separator.length))).map
          fun rest => seg :: rest
    | none =>
      if text_slice = [] then .ok []
      else (decode_text_segment encoding text_slice).map fun seg => [seg]

/-- `fn decode_text_segments(encoding: TextEncoding, mut text_slice: &[u8])`. -/
def decode_text_segments (encoding : TextEncoding) (text_slice : List Nat) :
    Res TextDecodeError (List String) :=
  decode_text_segments_loop encoding (text_slice.length + 1) text_slice

/-- `fn decode_text_frame(frame: &[u8])`: panics (out-of-bounds index
`frame[0]`) when the frame body is empty, as the source itself documents. -/
def decode_text_frame (frame : List Nat) : Res TextDecodeError (List String) :=
  match frame with
  | [] => .panic
  | enc_byte :: payload =>
    (TextEncoding.try_from enc_byte).bind fun encoding =>
      decode_text_segments encoding payload

/-! ## Integer and string parsing helpers

Rust `str::parse` for unsigned integers (`from_str_radix` with radix 10)
accepts an optional leading `+`, requires at least one decimal digit, and
fails on overflow of the target type.  Rust `str::get` and `str::len` work
on byte indices of the UTF-8 representation; `get` fails when an index is
out of range or not a character boundary. -/

def digit_val (c : Char) : Option Nat :=
  if '0' ≤ c && c ≤ '9' then some (c.toNat - 48) else none

def parse_digits (max : Nat) : List Char → Nat → Option Nat
  | [], acc => some acc
  | c :: rest, acc =>
    match digit_val c with
    | none => none
    | some d => if acc * 10 + d ≤ max then parse_digits max rest (acc * 10 + d) else none

/-- Rust `str::parse::<uN>()` with `max` the largest value of the target
type. -/
def parse_uint (max : Nat) (s : String) : Option Nat :=
  match s.data with
  | [] => none
  | ['+'] => none
  | '+' :: rest => parse_digits max rest 0
  | l => parse_digits max l 0

def U64_MAX : Nat := 18446744073709551615

/-- Number of bytes of the UTF-8 representation of a character. -/
def utf8_size (c : Char) : Nat :=
  if c.toNat < 0x80 then 1
  else if c.toNat < 0x800 then 2
  else if c.toNat < 0x10000 then 3
  else 4

/-- UTF-8 representation of one character. -/
def utf8_encode_char (c : Char) : List Nat :=
  let n := c.toNat
  if n < 0x80 then [n]
  else if n < 0x800 then [0xC0 + n / 0x40, 0x80 + n % 0x40]
  else if n < 0x10000 then
    [0xE0 + n / 0x1000, 0x80 + n / 0x40 % 0x40, 0x80 + n % 0x40]
  else
    [0xF0 + n / 0x40000, 0x80 + n / 0x1000 % 0x40, 0x80 + n / 0x40 % 0x40, 0x80 + n % 0x40]

/-- The UTF-8 bytes of a string (Rust `str::as_bytes`). -/
def utf8_bytes (s : String) : List Nat :=
  (s.data.map utf8_encode_char).flatten

/-- Split a character list at a UTF-8 byte offset; `none` when the offset
is past the end or not a character boundary. -/
def split_at_byte : Nat → List Char → Option (List Char × List Char)
  | 0, cs => some ([], cs)
  | _ + 1, [] => none
  | n + 1, c :: rest =>
    if utf8_size c ≤ n + 1 then
      (split_at_byte (n + 1 - utf8_size c) rest).map fun p => (c :: p.1, p.2)
    else none

/-- Rust `str::get(a..b)`. -/
def str_get (s : String) (a b : Nat) : Option String :=
  if a ≤ b then
    match split_at_byte a s.data with
    | none => none
    | some (_, post) =>
      match split_at_byte (b - a) post with
      | none => none
      | some (mid, _) => some ⟨mid⟩
  else none

/-! ## Value parsers and the frame data model (`src/id3/v24.rs`) -/

/-- `struct Date`. -/
structure Date where
  year : Nat
  month : Option Nat
  day : Option Nat
  hour : Option Nat
  minutes : Option Nat
  seconds : Option Nat
  deriving DecidableEq, Repr

/-- `enum ParseDateError`; the `ParseIntError` payload is not modelled. -/
inductive ParseDateError where
  | MissingYear
  | ParseIntError
  deriving DecidableEq, Repr

/-- One optional `u8` component of `Date::from_str`:
`s.get(a..b).map(|x| x.parse())`, with `Some(v?)`/`None`. -/
def date_component (s : String) (a b : Nat) : Res ParseDateError (Option Nat) :=
  match str_get s a b with
  | none => .ok none
  | some sub =>
    match parse_uint 255 sub with
    | none => .err .ParseIntError
    | some v => .ok (some v)

/-- `impl FromStr for Date` (layout `yyyy-MM-ddTHH:mm:ss`). -/
def date_from_str (s : String) : Res ParseDateError Date :=
  (match str_get s 0 4 with
   | none => .err .MissingYear
   | some ys =>
     match parse_uint 65535 ys with
     | none => .err (.ParseIntError)
     | some y => .ok y : Res ParseDateError Nat).bind fun year =>
  (date_component s 5 7).bind fun month =>
  (date_component s 8 10).bind fun day =>
  (date_component s 11 13).bind fun hour =>
  (date_component s 14 16).bind fun minutes =>
  (date_component s 17 19).map fun seconds =>
  { year, month, day, hour, minutes, seconds }

/-- `struct Track`. -/
structure Track where
  number : Nat
  max : Option Nat
  deriving DecidableEq, Repr

/-- `enum ParseTrackError`; the `ParseIntError` payload is not modelled. -/
inductive ParseTrackError where
  | InvalidTrackNumber
  deriving DecidableEq, Repr

/-- `s.splitn(2, sep)`: the part before the first separator, and the rest
after it when the separator occurs. -/
def splitn2 (sep : Char) : List Char → List Char × Option (List Char)
  | [] => ([], none)
  | c :: rest =>
    if c = sep then ([], some rest)
    else
      let p := splitn2 sep rest
      (c :: p.1, p.2)

/-- `impl FromStr for Track`. -/
def track_from_str (s : String) : Res ParseTrackError Track :=
  let p := splitn2 '/' s.data
  match parse_uint U64_MAX ⟨p.1⟩ with
  | none => .err .InvalidTrackNumber
  | some number =>
    match p.2 with
    | none => .ok { number, max := none }
    | some r =>
      match parse_uint U64_MAX ⟨r⟩ with
      | none => .err .InvalidTrackNumber
      | some m => .ok { number, max := some m }

/-- `struct Copyright`. -/
structure Copyright where
  year : Nat
  message : String
  deriving DecidableEq, Repr

/-- `struct Reverb`. -/
structure Reverb where
  ms_left : Nat
  ms_right : Nat
  bounces_left : Nat
  bounces_right : Nat
  feedback_left_to_left : Nat
  feedback_left_to_right : Nat
  feedback_right_to_right : Nat
  feedback_right_to_left : Nat
  premix_left_to_right : Nat
  premix_right_to_left : Nat
  deriving DecidableEq, Repr

/-- `struct LangDescriptionText`. -/
structure LangDescriptionText where
  iso_639_2_lang : List Nat
  description : String
  text : List String
  deriving DecidableEq, Repr

/-- `struct Txxx`. -/
structure Txxx where
  description : String
  text : List String
  deriving DecidableEq, Repr

/-- `struct Priv`. -/
structure Priv where
  owner : String
  data : List Nat
  deriving DecidableEq, Repr

/-- `struct Unknown`. -/
structure Unknown where
  name : List Nat
  data : List Nat
  deriving DecidableEq, Repr

set_option maxHeartbeats 2000000 in
/-- `enum FrameData`: the `HashMap<String, String>` of TIPL/TMCL is
modelled as an insertion list (see `map_insert`). -/
inductive FrameData where
  | COMM (x : LangDescriptionText)
  | PRIV (x : Priv)
  | RVRB (x : Reverb)
  | TALB (x : List String)
  | TBPM (x : List Nat)
  | TCOM (x : List String)
  | TCON (x : List String)
  | TCOP (x : List Copyright)
  | TDEN (x : List Date)
  | TDLY (x : List Nat)
  | TDOR (x : List Date)
  | TDRC (x : List Date)
  | TDRL (x : List Date)
  | TDTG (x : List Date)
  | TENC (x : List String)
  | TEXT (x : List String)
  | TIPL (x : List (String × String))
  | TIT1 (x : List String)
  | TIT2 (x : List String)
  | TIT3 (x : List String)
  | TLEN (x : List Nat)
  | TMCL (x : List (String × String))
  | TMOO (x : List String)
  | TOAL (x : List String)
  | TOFN (x : List String)
  | TOLY (x : List String)
  | TOPE (x : List String)
  | TOWN (x : List String)
  | TPE1 (x : List String)
  | TPE2 (x : List String)
  | TPE3 (x : List String)
  | TPE4 (x : List String)
  | TPOS (x : List Track)
  | TPRO (x : List Copyright)
  | TPUB (x : List String)
  | TRCK (x : List Track)
  | TRSN (x : List String)
  | TRSO (x : List String)
  | TSOA (x : List String)
  | TSOP (x : List String)
  | TSOT (x : List String)
  | TSRC (x : List String)
  | TSSE (x : List String)
  | TSST (x : List String)
  | TXXX (x : Txxx)
  | USLT (x : LangDescriptionText)
  | WCOM (x : String)
  | WCOP (x : String)
  | WOAF (x : String)
  | WOAR (x : String)
  | WOAS (x : String)
  | WORS (x : String)
  | WPAY (x : String)
  | WPUB (x : String)
  | Unknown (x : Unknown)
  deriving Repr

/-- `enum FrameParseErrorReason`; `ParseIntError` payloads are not
modelled. -/
inductive FrameParseErrorReason where
  | FrameTooSmall
  | MissingNullTerminator
  | MissingValueInMapFrame
  | ParseDateError (e : ParseDateError)
  | ParseIntError
  | ParseTrackError (e : ParseTrackError)
  | TextDecodeError (e : TextDecodeError)
  deriving DecidableEq, Repr

/-- `struct FrameParseError`. -/
structure FrameParseError where
  name : List Nat
  reason : FrameParseErrorReason
  deriving DecidableEq, Repr

/-- `struct Frame`. -/
structure Frame where
  data : FrameData
  group : Option Nat
  deriving Repr

/-! ## Frame decoders (`src/id3/v24.rs`) -/

/-- `fn map_parse<T: FromStr>(str_vec: Vec<String>)`: parse every segment,
propagating the first error. -/
def map_parse {ε α : Type} (parse : String → Res ε α) : List String → Res ε (List α)
  | [] => .ok []
  | s :: rest => (parse s).bind fun a => (map_parse parse rest).map fun xs => a :: xs

/-- `item.parse::<u64>()?` with the `From<ParseIntError>` conversion. -/
def parse_u64_reason (s : String) : Res FrameParseErrorReason Nat :=
  match parse_uint U64_MAX s with
  | some n => .ok n
  | none => .err .ParseIntError

/-- `item.parse::<Date>()?` with the `From<ParseDateError>` conversion. -/
def parse_date_reason (s : String) : Res FrameParseErrorReason Date :=
  (date_from_str s).mapErr .ParseDateError

/-- `item.parse::<Track>()?` with the `From<ParseTrackError>` conversion. -/
def parse_track_reason (s : String) : Res FrameParseErrorReason Track :=
  (track_from_str s).mapErr .ParseTrackError

/-- `decode_text_frame(frame_bytes)?` with the `From<TextDecodeError>`
conversion. -/
def decode_text_frame_reason (frame_bytes : List Nat) :
    Res FrameParseErrorReason (List String) :=
  (decode_text_frame frame_bytes).mapErr .TextDecodeError

/-- `fn decode_url_frame(mut frame: &[u8])`: panics on an empty body
(`frame[frame.len() - 1]` with `frame.len() == 0`). -/
def decode_url_frame (frame : List Nat) : Res FrameParseErrorReason String :=
  match frame with
  | [] => .panic
  | _ =>
    let frame2 := if frame.getLast? = some 0 then frame.dropLast else frame
    .ok ⟨frame2.map Char.ofNat⟩

/-- `fn decode_priv_frame(frame_bytes: &[u8])`. -/
def decode_priv_frame (frame_bytes : List Nat) : Res FrameParseErrorReason FrameData :=
  match frame_bytes.findIdx? (· = 0) with
  | none => .err .MissingNullTerminator
  | some owner_end =>
    let data_ref :=
      if owner_end + 1 = frame_bytes.length then [] else frame_bytes.drop (owner_end + 1)
    .ok (.PRIV { owner := ⟨(frame_bytes.take owner_end).map Char.ofNat⟩, data := data_ref })

/-- `fn decode_reverb_frame(frame: &[u8])`. -/
def decode_reverb_frame (frame : List Nat) : Res FrameParseErrorReason Reverb :=
  if frame.length < 12 then .err .FrameTooSmall
  else
    .ok
      { ms_left := read_u16_be frame 0
        ms_right := read_u16_be frame 2
        bounces_left := frame.getD 4 0
        bounces_right := frame.getD 5 0
        feedback_left_to_left := frame.getD 6 0
        feedback_left_to_right := frame.getD 7 0
        feedback_right_to_right := frame.getD 8 0
        feedback_right_to_left := frame.getD 9 0
        premix_left_to_right := frame.getD 10 0
        premix_right_to_left := frame.getD 11 0 }

/-- `fn decode_description_text(encoding: TextEncoding, bytes: &[u8])`. -/
def decode_description_text (encoding : TextEncoding) (bytes : List Nat) :
    Res FrameParseErrorReason (String × List String) :=
  let separator := encoding.get_trailing_null_slice
  match find_term separator bytes with
  | none => .err .MissingNullTerminator
  | some description_end =>
    ((decode_text_segment encoding (bytes.take description_end)).mapErr
        FrameParseErrorReason.TextDecodeError).bind fun description =>
      ((decode_text_segments encoding
            (bytes.drop (description_end + separator.length))).mapErr
          FrameParseErrorReason.TextDecodeError).map fun text => (description, text)

/-- `fn decode_lang_description_text(frame_bytes: &[u8])`. -/
def decode_lang_description_text (frame_bytes : List Nat) :
    Res FrameParseErrorReason LangDescriptionText :=
  if frame_bytes.length < 5 then .err .FrameTooSmall
  else
    ((TextEncoding.try_from (frame_bytes.getD 0 0)).mapErr
        FrameParseErrorReason.TextDecodeError).bind fun encoding =>
      (decode_description_text encoding (frame_bytes.drop 4)).map fun dt =>
        { iso_639_2_lang := subslice frame_bytes 1 4
          description := dt.1
          text := dt.2 }

/-- `fn decode_txxx_frame(frame_bytes: &[u8])`. -/
def decode_txxx_frame (frame_bytes : List Nat) : Res FrameParseErrorReason FrameData :=
  if frame_bytes.length < 2 then .err .FrameTooSmall
  else
    ((TextEncoding.try_from (frame_bytes.getD 0 0)).mapErr
        FrameParseErrorReason.TextDecodeError).bind fun encoding =>
      (decode_description_text encoding (frame_bytes.drop 1)).map fun dt =>
        .TXXX { description := dt.1, text := dt.2 }

/-- The per-segment genre rewriting of `fn decode_genre_frame`. -/
def genre_map (genre : String) : String :=
  match genre with
  | "0" => "Blues"
  | "1" => "Classic Rock"
  | "2" => "Country"
  | "3" => "Dance"
  | "4" => "Disco"
  | "5" => "Funk"
  | "6" => "Grunge"
  | "7" => "Hip-Hop"
  | "8" => "Jazz"
  | "9" => "Metal"
  | "10" => "New Age"
  | "11" => "Oldies"
  | "12" => "Other"
  | "13" => "Pop"
  | "14" => "R&B"
  | "15" => "Rap"
  | "16" => "Reggae"
  | "17" => "Rock"
  | "18" => "Techno"
  | "19" => "Industrial"
  | "20" => "Alternative"
  | "21" => "Ska"
  | "22" => "Death Metal"
  | "23" => "Pranks"
  | "24" => "Soundtrack"
  | "25" => "Euro-Techno"
  | "26" => "Ambient"
  | "27" => "Trip-Hop"
  | "28" => "Vocal"
  | "29" => "Jazz+Funk"
  | "30" => "Fusion"
  | "31" => "Trance"
  | "32" => "Classical"
  | "33" => "Instrumental"
  | "34" => "Acid"
  | "35" => "House"
  | "36" => "Game"
  | "37" => "Sound Clip"
  | "38" => "Gospel"
  | "39" => "Noise"
  | "40" => "AlternRock"
  | "41" => "Bass"
  | "42" => "Soul"
  | "43" => "Punk"
  | "44" => "Space"
  | "45" => "Meditative"
  | "46" => "Instrumental Pop"
  | "47" => "Instrumental Rock"
  | "48" => "Ethnic"
  | "49" => "Gothic"
  | "50" => "Darkwave"
  | "51" => "Techno-Industrial"
  | "52" => "Electronic"
  | "53" => "Pop-Folk"
  | "54" => "Eurodance"
  | "55" => "Dream"
  | "56" => "Southern Rock"
  | "57" => "Comedy"
  | "58" => "Cult"
  | "59" => "Gangsta"
  | "60" => "Top 40"
  | "61" => "Christian Rap"
  | "62" => "Pop/Funk"
  | "63" => "Jungle"
  | "64" => "Native American"
  | "65" => "Cabaret"
  | "66" => "New Wave"
  | "67" => "Psychedelic"
  | "68" => "Rave"
  | "69" => "Showtunes"
  | "70" => "Trailer"
  | "71" => "Lo-Fi"
  | "72" => "Tribal"
  | "73" => "Acid Punk"
  | "74" => "Acid Jazz"
  | "75" => "Polka"
  | "76" => "Retro"
  | "77" => "Musical"
  | "78" => "Rock & Roll"
  | "79" => "Hard Rock"
  | "RX" => "Remix"
  | "CR" => "Cover"
  | _ => genre

/-- `fn decode_genre_frame(frame_bytes: &[u8])`. -/
def decode_genre_frame (frame_bytes : List Nat) : Res TextDecodeError FrameData :=
  (decode_text_frame frame_bytes).map fun genres => .TCON (genres.map genre_map)

/-- `fn decode_copyright_frame(mut text: String)`: `text.len()` is the
UTF-8 byte length; `text[0..4]` panics off a character boundary; the
message is the byte tail after the year (and one following space, when
present), re-decoded (the source rebuilds the `String` in place with
`set_len`/`copy`; a non-UTF-8 tail would be library UB, modelled as a
panic, and is unreachable after a successful year parse). -/
def decode_copyright_frame (text : String) : Res FrameParseErrorReason Copyright :=
  let text_bytes := utf8_bytes text
  if text_bytes.length < 4 then .err .FrameTooSmall
  else
    match str_get text 0 4 with
    | none => .panic
    | some ys =>
      match parse_uint 65535 ys with
      | none => .err .ParseIntError
      | some year =>
        let rest :=
          if text_bytes.length > 4 && text_bytes.getD 4 0 = 0x20 then text_bytes.drop 5
          else text_bytes.drop 4
        match utf8_chars rest with
        | some cs => .ok { year, message := ⟨cs⟩ }
        | none => .panic

/-- `HashMap::insert`: replace the value of an existing key, else append. -/
def map_insert (m : List (String × String)) (k v : String) : List (String × String) :=
  if m.any (fun kv => kv.1 = k) then m.map fun kv => if kv.1 = k then (k, v) else kv
  else m ++ [(k, v)]

/-- The byte positions produced by
`frame[1..].chunks_exact(w).enumerate().filter(|(_, x)| *x == separator).map(|(i, _)| i * w)`:
positions are relative to `frame[1..]`. -/
def sep_positions (separator : List Nat) (l : List Nat) : List Nat :=
  ((List.range (l.length / separator.length)).filter fun i =>
      decide (subslice l (i * separator.length) ((i + 1) * separator.length) = separator)).map
    (· * separator.length)

/-- The `loop` of `fn decode_text_map_frame`, consuming the separator
positions two at a time.  `frame` is the whole frame body and `start`
begins at 1, but the positions are offsets into `frame[1..]` — the
source's indexing is reproduced verbatim. -/
def map_frame_loop (encoding : TextEncoding) (frame : List Nat) (w : Nat) :
    Nat → List Nat → List (String × String) → Res FrameParseErrorReason (List (String × String))
  | _, [], acc => .ok acc
  | start, [k_end], acc =>
    if k_end + w = frame.length then .err .MissingValueInMapFrame
    else
      ((decode_text_segment encoding (subslice frame start k_end)).mapErr
          FrameParseErrorReason.TextDecodeError).bind fun key =>
        ((decode_text_segment encoding (subslice frame (k_end + w) frame.length)).mapErr
            FrameParseErrorReason.TextDecodeError).map fun value =>
          map_insert acc key value
  | start, k_end :: v_end :: rest, acc =>
    ((decode_text_segment encoding (subslice frame start k_end)).mapErr
        FrameParseErrorReason.TextDecodeError).bind fun key =>
      ((decode_text_segment encoding (subslice frame (k_end + w) v_end)).mapErr
          FrameParseErrorReason.TextDecodeError).bind fun value =>
        map_frame_loop encoding frame w (v_end + w) rest (map_insert acc key value)

/-- `fn decode_text_map_frame(frame: &[u8])`: panics (index `frame[0]`)
on an empty body. -/
def decode_text_map_frame (frame : List Nat) :
    Res FrameParseErrorReason (List (String × String)) :=
  match frame with
  | [] => .panic
  | enc_byte :: tail =>
    ((TextEncoding.try_from enc_byte).mapErr
        FrameParseErrorReason.TextDecodeError).bind fun encoding =>
      let separator := encoding.get_trailing_null_slice
      map_frame_loop encoding frame separator.length 1
        (sep_positions separator tail) []

/-- The byte values of a four-character frame identifier. -/
def frame_id (s : String) : List Nat :=
  s.data.map Char.toNat

/-- The identifier dispatch of `impl Iterator for Parser::next`
(`src/id3/v24.rs`): route the frame body to the decoder selected by the
four-byte name; unrecognized names yield `FrameData::Unknown`. -/
def frame_dispatch (name : List Nat) (frame_bytes : List Nat) :
    Res FrameParseErrorReason FrameData :=
  if name = frame_id "COMM" then (decode_lang_description_text frame_bytes).map .COMM
  else if name = frame_id "PRIV" then decode_priv_frame frame_bytes
  else if name = frame_id "RVRB" then (decode_reverb_frame frame_bytes).map .RVRB
  else if name = frame_id "TALB" then (decode_text_frame_reason frame_bytes).map .TALB
  else if name = frame_id "TBPM" then
    (decode_text_frame_reason frame_bytes).bind fun v =>
      (map_parse parse_u64_reason v).map .TBPM
  else if name = frame_id "TCOM" then (decode_text_frame_reason frame_bytes).map .TCOM
  else if name = frame_id "TCON" then
    (decode_genre_frame frame_bytes).mapErr FrameParseErrorReason.TextDecodeError
  else if name = frame_id "TCOP" then
    (decode_text_frame_reason frame_bytes).bind fun v =>
      (map_parse decode_copyright_frame v).map .TCOP
  else if name = frame_id "TDEN" then
    (decode_text_frame_reason frame_bytes).bind fun v =>
      (map_parse parse_date_reason v).map .TDEN
  else if name = frame_id "TDOR" then
    (decode_text_frame_reason frame_bytes).bind fun v =>
      (map_parse parse_date_reason v).map .TDOR
  else if name = frame_id "TDLY" then
    (decode_text_frame_reason frame_bytes).bind fun v =>
      (map_parse parse_u64_reason v).map .TDLY
  else if name = frame_id "TDRC" then
    (decode_text_frame_reason frame_bytes).bind fun v =>
      (map_parse parse_date_reason v).map .TDRC
  else if name = frame_id "TDRL" then
    (decode_text_frame_reason frame_bytes).bind fun v =>
      (map_parse parse_date_reason v).map .TDRL
  else if name = frame_id "TDTG" then
    (decode_text_frame_reason frame_bytes).bind fun v =>
      (map_parse parse_date_reason v).map .TDTG
  else if name = frame_id "TENC" then (decode_text_frame_reason frame_bytes).map .TENC
  else if name = frame_id "TEXT" then (decode_text_frame_reason frame_bytes).map .TEXT
  else if name = frame_id "TIPL" then (decode_text_map_frame frame_bytes).map .TIPL
  else if name = frame_id "TIT1" then (decode_text_frame_reason frame_bytes).map .TIT1
  else if name = frame_id "TIT2" then (decode_text_frame_reason frame_bytes).map .TIT2
  else if name = frame_id "TIT3" then (decode_text_frame_reason frame_bytes).map .TIT3
  else if name = frame_id "TLEN" then
    (decode_text_frame_reason frame_bytes).bind fun v =>
      (map_parse parse_u64_reason v).map .TLEN
  else if name = frame_id "TMCL" then (decode_text_map_frame frame_bytes).map .TMCL
  else if name = frame_id "TMOO" then (decode_text_frame_reason frame_bytes).map .TMOO
  else if name = frame_id "TOAL" then (decode_text_frame_reason frame_bytes).map .TOAL
  else if name = frame_id "TOFN" then (decode_text_frame_reason frame_bytes).map .TOFN
  else if name = frame_id "TOLY" then (decode_text_frame_reason frame_bytes).map .TOLY
  else if name = frame_id "TOPE" then (decode_text_frame_reason frame_bytes).map .TOPE
  else if name = frame_id "TOWN" then (decode_text_frame_reason frame_bytes).map .TOWN
  else if name = frame_id "TPE1" then (decode_text_frame_reason frame_bytes).map .TPE1
  else if name = frame_id "TPE2" then (decode_text_frame_reason frame_bytes).map .TPE2
  else if name = frame_id "TPE3" then (decode_text_frame_reason frame_bytes).map .TPE3
  else if name = frame_id "TPE4" then (decode_text_frame_reason frame_bytes).map .TPE4
  else if name = frame_id "TPOS" then
    (decode_text_frame_reason frame_bytes).bind fun v =>
      (map_parse parse_track_reason v).map .TPOS
  else if name = frame_id "TPRO" then
    (decode_text_frame_reason frame_bytes).bind fun v =>
      (map_parse decode_copyright_frame v).map .TPRO
  else if name = frame_id "TPUB" then (decode_text_frame_reason frame_bytes).map .TPUB
  else if name = frame_id "TRCK" then
    (decode_text_frame_reason frame_bytes).bind fun v =>
      (map_parse parse_track_reason v).map .TRCK
  else if name = frame_id "TRSN" then (decode_text_frame_reason frame_bytes).map .TRSN
  else if name = frame_id "TRSO" then (decode_text_frame_reason frame_bytes).map .TRSO
  else if name = frame_id "TSOA" then (decode_text_frame_reason frame_bytes).map .TSOA
  else if name = frame_id "TSOP" then (decode_text_frame_reason frame_bytes).map .TSOP
  else if name = frame_id "TSOT" then (decode_text_frame_reason frame_bytes).map .TSOT
  else if name = frame_id "TSRC" then (decode_text_frame_reason frame_bytes).map .TSRC
  else if name = frame_id "TSSE" then (decode_text_frame_reason frame_bytes).map .TSSE
  else if name = frame_id "TSST" then (decode_text_frame_reason frame_bytes).map .TSST
  else if name = frame_id "TXXX" then decode_txxx_frame frame_bytes
  else if name = frame_id "USLT" then (decode_lang_description_text frame_bytes).map .USLT
  else if name = frame_id "WCOM" then (decode_url_frame frame_bytes).map .WCOM
  else if name = frame_id "WCOP" then (decode_url_frame frame_bytes).map .WCOP
  else if name = frame_id "WOAF" then (decode_url_frame frame_bytes).map .WOAF
  else if name = frame_id "WOAR" then (decode_url_frame frame_bytes).map .WOAR
  else if name = frame_id "WOAS" then (decode_url_frame frame_bytes).map .WOAS
  else if name = frame_id "WORS" then (decode_url_frame frame_bytes).map .WORS
  else if name = frame_id "WPAY" then (decode_url_frame frame_bytes).map .WPAY
  else if name = frame_id "WPUB" then (decode_url_frame frame_bytes).map .WPUB
  else .ok (.Unknown { name, data := frame_bytes })

/-- Outcome of one `Parser::next` call of the v2.4 frame stream:
end of iteration, one emitted item with the new cursor, or a panic. -/
inductive V24Step where
  | done
  | emit (item : Res FrameParseError Frame) (cursor : Nat)
  | panic
  deriving Repr

/-- Body slicing and dispatch of `Parser::next` (`src/id3/v24.rs`): slice
`frame_size` bytes at the cursor (a Rust panic when that overruns the
buffer), route them through the identifier dispatch, emit the result and
advance the cursor past the body. -/
def v24_next_body (content : List Nat) (name : List Nat) (group : Option Nat)
    (frame_size : Nat) (cursor : Nat) : V24Step :=
  if cursor + frame_size ≤ content.length then
    match frame_dispatch name (subslice content cursor (cursor + frame_size)) with
    | .ok data => .emit (.ok { data, group }) (cursor + frame_size)
    | .err reason => .emit (.err { name, reason }) (cursor + frame_size)
    | .panic => .panic
  else .panic

/-- The `DATA_LENGTH_INDICATOR` step of `Parser::next`: when the flag is
set, read four more bytes (Rust panics when they overrun the buffer) and
OVERWRITE the frame size with their decoded synchsafe value, advancing the
cursor by four. -/
def v24_next_dli (content : List Nat) (name : List Nat) (frame_flags : Nat)
    (group : Option Nat) (frame_size : Nat) (cursor : Nat) : V24Step :=
  if frame_flags &&& 0x0001 ≠ 0 then
    if cursor + 4 ≤ content.length then
      v24_next_body content name group
        (synchsafe_u32_to_u32 (read_u32_be content cursor)) (cursor + 4)
    else .panic
  else v24_next_body content name group frame_size cursor

/-- `impl Iterator for Parser::next` (`src/id3/v24.rs`) as a function of
the frame buffer and cursor.  The `GROUPING_IDENTITY` branch reads the
group byte (a Rust panic when past the buffer) and evaluates
`frame_size.saturating_sub(1)` DISCARDING the result, so the frame size is
left unchanged. -/
def v24_next (content : List Nat) (cursor : Nat) : V24Step :=
  -- `self.content.len() - self.cursor` is usize subtraction; truncated Nat
  -- subtraction coincides with it under the parser invariant cursor ≤ len.
  if content.length - cursor < 10 then .done
  else
    let name := subslice content cursor (cursor + 4)
    if name = [0, 0, 0, 0] then .done
    else
      let frame_size := synchsafe_u32_to_u32 (read_u32_be content (cursor + 4))
      let frame_flags := read_u16_be content (cursor + 8)
      if frame_flags &&& 0x0040 ≠ 0 then
        match content[cursor + 10]? with
        | some b => v24_next_dli content name frame_flags (some b) frame_size (cursor + 11)
        | none => .panic
      else v24_next_dli content name frame_flags none frame_size (cursor + 10)

/-! ## Tag framing (`src/id3/mod.rs`) -/

/-- `enum TagParseError`; the `io::Error` payload is not modelled. -/
inductive TagParseError where
  | NoTag
  | UnsupportedVersion (v : Nat)
  | Io
  deriving DecidableEq, Repr

/-- `enum TagFlags` of `src/id3/mod.rs`: per-version flag bytes, already
masked by `from_bits_truncate`. -/
inductive VersionedTagFlags where
  | V24 (flags : Nat)
  | V23 (flags : Nat)
  | V22 (flags : Nat)
  deriving DecidableEq, Repr

/-- `struct Header` of `src/id3/mod.rs`. -/
structure Header where
  flags : VersionedTagFlags
  revision : Nat
  size : Nat
  deriving DecidableEq, Repr

/-- `fn parse_header(header: &[u8])`: `header` is the outer header without
the leading `"ID3"`.  `from_bits_truncate` keeps the defined flag bits of
each version (`0xF0` for v2.4, `0xE0` for v2.3, `0xC0` for v2.2). -/
def parse_header (header : List Nat) : Res TagParseError Header :=
  let major_version := header.getD 0 0
  let revision := header.getD 1 0
  let raw_flags := header.getD 2 0
  let size := synchsafe_u32_to_u32 (read_u32_be header 3)
  match major_version with
  | 2 => .ok { flags := .V22 (raw_flags &&& 0xC0), revision, size }
  | 3 => .ok { flags := .V23 (raw_flags &&& 0xE0), revision, size }
  | 4 => .ok { flags := .V24 (raw_flags &&& 0xF0), revision, size }
  | v => .err (.UnsupportedVersion v)

/-- `struct Parser` of `src/id3/mod.rs`. -/
structure ModParser where
  content : List Nat
  cursor : Nat
  deriving DecidableEq, Repr

/-- `pub fn parse_source<S: Read + Seek>(source: &mut S)` of
`src/id3/mod.rs`, with the byte source modelled as the list of bytes it
yields.  When the first three bytes are not `"ID3"` the source executes
`if true { unimplemented!() } else { return Err(TagParseError::NoTag) }`:
the footer-search placeholder panics and the `NoTag` return is dead code.
Each v2.4 tag flag (unsynchronisation, extended header, experimental,
footer) likewise reaches `unimplemented!()`.  A short read of either the
10-byte header or the frame buffer is an `Io` error. -/
def parse_source (source : List Nat) : Res TagParseError ModParser :=
  if source.length < 10 then .err .Io
  else
    let header := subslice source 0 10
    if subslice header 0 3 = frame_id "ID3" then
      (parse_header (subslice header 3 10)).bind fun h =>
        match h.flags with
        | .V24 flags =>
          if flags &&& 0x80 ≠ 0 then .panic
          else if flags &&& 0x40 ≠ 0 then .panic
          else if flags &&& 0x20 ≠ 0 then .panic
          else if flags &&& 0x10 ≠ 0 then .panic
          else if source.length - 10 < h.size then .err .Io
          else .ok { content := subslice source 10 (10 + h.size), cursor := 0 }
        | .V23 _ => .err (.UnsupportedVersion 3)
        | .V22 _ => .err (.UnsupportedVersion 2)
    else .panic

/-! ## Terminator counting (specification side)

`count_terminators` counts the aligned complete chunks of the payload that
equal the terminator; `ends_with_terminator` states that the payload ends
exactly at such a chunk.  These express the segment-count invariant of the
specification and are compared with the behaviour of
`decode_text_segments`. -/

/-- The encoding byte that selects each text encoding. -/
def encoding_byte : TextEncoding → Nat
  | .ISO8859 => 0
  | .UTF16BOM => 1
  | .UTF16BE => 2
  | .UTF8 => 3

/-- Number of terminator occurrences in `l`: aligned complete chunks of
the terminator width equal to the terminator. -/
def count_terminators (separator : List Nat) (l : List Nat) : Nat :=
  (List.range (l.length / separator.length)).countP fun i =>
    decide (subslice l (i * separator.length) ((i + 1) * separator.length) = separator)

/-- `l` ends with an aligned terminator chunk. -/
def ends_with_terminator (separator : List Nat) (l : List Nat) : Prop :=
  l ≠ [] ∧ separator.length ∣ l.length ∧ l.drop (l.length - separator.length) = separator

instance (separator l : List Nat) : Decidable (ends_with_terminator separator l) := by
  unfold ends_with_terminator
  infer_instance

theorem subslice_drop (l : List Nat) (a b c : Nat) :
    subslice (l.drop a) b c = subslice l (a + b) (a + c) := by
  unfold subslice
  rw [List.drop_drop]
  have h2 : a + c - (a + b) = c - b := by omega
  rw [h2]

theorem subslice_chunk_drop (l : List Nat) (w i : Nat) :
    subslice (l.drop w) (i * w) ((i + 1) * w) = subslice l ((i + 1) * w) ((i + 2) * w) := by
  rw [subslice_drop]
  congr 1 <;> ring

theorem find_term_small {sep l : List Nat} (h : l.length < sep.length) :
    find_term sep l = none := by
  unfold find_term
  rw [Nat.div_eq_of_lt h]
  rfl

theorem count_term_small {sep l : List Nat} (h : l.length < sep.length) :
    count_terminators sep l = 0 := by
  unfold count_terminators
  rw [Nat.div_eq_of_lt h]
  rfl

theorem find_term_zero {sep l : List Nat} (hw : 0 < sep.length)
    (hlen : sep.length ≤ l.length) (h : subslice l 0 sep.length = sep) :
    find_term sep l = some 0 := by
  unfold find_term
  rw [Nat.div_eq_sub_div hw hlen, List.range_succ_eq_map,
    List.find?_cons_of_pos _ (by simpa using h)]
  simp

theorem find_term_step {sep l : List Nat} (hw : 0 < sep.length)
    (hlen : sep.length ≤ l.length) (h : subslice l 0 sep.length ≠ sep) :
    find_term sep l = (find_term sep (l.drop sep.length)).map (· + sep.length) := by
  unfold find_term
  rw [Nat.div_eq_sub_div hw hlen, List.range_succ_eq_map,
    List.find?_cons_of_neg _ (by simpa using h), List.find?_map]
  have hcomp : ((fun i => decide (subslice l (i * sep.length) ((i + 1) * sep.length) = sep)) ∘
      Nat.succ) = fun j =>
        decide (subslice (l.drop sep.length) (j * sep.length) ((j + 1) * sep.length) = sep) := by
    funext j
    simp only [Function.comp_apply]
    rw [subslice_chunk_drop]
  rw [hcomp, List.length_drop, Option.map_map, Option.map_map]
  congr 1
  funext j
  show (j + 1) * sep.length = j * sep.length + sep.length
  ring

theorem count_term_step {sep l : List Nat} (hw : 0 < sep.length)
    (hlen : sep.length ≤ l.length) :
    count_terminators sep l = (if subslice l 0 sep.length = sep then 1 else 0) +
      count_terminators sep (l.drop sep.length) := by
  unfold count_terminators
  rw [Nat.div_eq_sub_div hw hlen, List.range_succ_eq_map, List.countP_cons, List.countP_map,
    List.length_drop]
  have hcomp : ((fun i => decide (subslice l (i * sep.length) ((i + 1) * sep.length) = sep)) ∘
      Nat.succ) = fun j =>
        decide (subslice (l.drop sep.length) (j * sep.length) ((j + 1) * sep.length) = sep) := by
    funext j
    simp only [Function.comp_apply]
    rw [subslice_chunk_drop]
  rw [hcomp]
  have h0 : (0 + 1) * sep.length = sep.length := by ring
  simp only [Nat.zero_mul, h0]
  by_cases hs : subslice l 0 sep.length = sep <;> simp [hs, Nat.add_comm]

theorem find_term_some_le {sep l : List Nat} {p : Nat} (h : find_term sep l = some p) :
    0 < sep.length ∧ p + sep.length ≤ l.length ∧
      subslice l p (p + sep.length) = sep ∧ sep.length ∣ p := by
  unfold find_term at h
  rw [Option.map_eq_some'] at h
  obtain ⟨i, hi, rfl⟩ := h
  have hpred := List.find?_some hi
  have hmem := List.mem_of_find?_eq_some hi
  rw [List.mem_range] at hmem
  have hw : 0 < sep.length := by
    rcases Nat.eq_zero_or_pos sep.length with h0 | h1
    · rw [h0] at hmem
      simp at hmem
    · exact h1
  refine ⟨hw, ?_, ?_, ⟨i, by ring⟩⟩
  · have h1 : i + 1 ≤ l.length / sep.length := hmem
    calc i * sep.length + sep.length = (i + 1) * sep.length := by ring
      _ ≤ (l.length / sep.length) * sep.length := Nat.mul_le_mul_right _ h1
      _ ≤ l.length := Nat.div_mul_le_self _ _
  · have h2 := of_decide_eq_true hpred
    calc subslice l (i * sep.length) (i * sep.length + sep.length)
        = subslice l (i * sep.length) ((i + 1) * sep.length) := by congr 1; ring
      _ = sep := h2

theorem sep_len_pos (e : TextEncoding) : 0 < e.get_trailing_null_slice.length := by
  cases e <;> decide

theorem ends_with_drop {sep l : List Nat} (_hw : 0 < sep.length)
    (hlen : sep.length ≤ l.length) (hne : l.drop sep.length ≠ []) :
    ends_with_terminator sep l ↔ ends_with_terminator sep (l.drop sep.length) := by
  have hld : (l.drop sep.length).length = l.length - sep.length := List.length_drop ..
  have hgt : sep.length < l.length := by
    rcases Nat.lt_or_ge sep.length l.length with h | h
    · exact h
    · exfalso
      apply hne
      rw [← List.length_eq_zero, hld]
      omega
  unfold ends_with_terminator
  constructor
  · rintro ⟨h1, h2, h3⟩
    have h2w : 2 * sep.length ≤ l.length := by
      obtain ⟨k, hk⟩ := h2
      rcases k with _ | _ | k
      · simp [hk] at hgt
      · simp [hk] at hgt
      · have hx : sep.length * (k + 1 + 1) = sep.length * k + sep.length + sep.length := by
          ring
        omega
    refine ⟨hne, ?_, ?_⟩
    · rw [hld]
      exact Nat.dvd_sub' h2 dvd_rfl
    · rw [hld, List.drop_drop]
      have he : sep.length + (l.length - sep.length - sep.length) = l.length - sep.length := by
        omega
      rw [he]
      exact h3
  · rintro ⟨h1, h2, h3⟩
    rw [hld] at h2 h3
    have hsub : 0 < l.length - sep.length := by omega
    have h2w : 2 * sep.length ≤ l.length := by
      obtain ⟨k, hk⟩ := h2
      rcases k with _ | k
      · omega
      · have hx : sep.length * (k + 1) = sep.length * k + sep.length := by ring
        omega
    refine ⟨?_, ?_, ?_⟩
    · intro he
      rw [he] at hgt
      simp at hgt
    · have : l.length = (l.length - sep.length) + sep.length := by omega
      rw [this]
      exact Nat.dvd_add h2 dvd_rfl
    · rw [List.drop_drop] at h3
      have he : sep.length + (l.length - sep.length - sep.length) = l.length - sep.length := by
        omega
      rw [he] at h3
      exact h3

theorem count_term_zero_of_none {sep : List Nat} (hw : 0 < sep.length) :
    ∀ (n : Nat) (l : List Nat), l.length ≤ n → find_term sep l = none →
      count_terminators sep l = 0 := by
  intro n
  induction n with
  | zero =>
    intro l hlen _
    exact count_term_small (by omega)
  | succ m ih =>
    intro l hlen hfind
    rcases Nat.lt_or_ge l.length sep.length with hsm | hge
    · exact count_term_small hsm
    · by_cases hs : subslice l 0 sep.length = sep
      · rw [find_term_zero hw hge hs] at hfind
        exact absurd hfind (by simp)
      · rw [count_term_step hw hge, if_neg hs]
        rw [find_term_step hw hge hs, Option.map_eq_none'] at hfind
        have := ih (l.drop sep.length) (by rw [List.length_drop]; omega) hfind
        omega

theorem not_ends_of_find_none {sep : List Nat} (hw : 0 < sep.length) :
    ∀ (n : Nat) (l : List Nat), l.length ≤ n → find_term sep l = none → l ≠ [] →
      ¬ ends_with_terminator sep l := by
  intro n
  induction n with
  | zero =>
    intro l hlen _ hne
    exact absurd (List.length_eq_zero.mp (by omega)) hne
  | succ m ih =>
    intro l hlen hfind hne
    rintro ⟨-, hdvd, hdrop⟩
    have hge : sep.length ≤ l.length := by
      obtain ⟨k, hk⟩ := hdvd
      have hp : 0 < l.length := List.length_pos.mpr hne
      rcases k with _ | k
      · omega
      · have hx : sep.length * (k + 1) = sep.length * k + sep.length := by ring
        omega
    by_cases hs : subslice l 0 sep.length = sep
    · rw [find_term_zero hw hge hs] at hfind
      exact absurd hfind (by simp)
    · rw [find_term_step hw hge hs, Option.map_eq_none'] at hfind
      by_cases hdw : l.drop sep.length = []
      · have hlw : l.length = sep.length := by
          have := congrArg List.length hdw
          rw [List.length_drop] at this
          simp at this
          omega
        apply hs
        unfold subslice
        rw [List.drop_zero, Nat.sub_zero]
        calc l.take sep.length = l := List.take_of_length_le (by omega)
          _ = l.drop (l.length - sep.length) := by rw [hlw]; simp
          _ = sep := hdrop
      · have hends : ends_with_terminator sep l := ⟨hne, hdvd, hdrop⟩
        have := (ends_with_drop hw hge hdw).mp hends
        exact ih (l.drop sep.length) (by rw [List.length_drop]; omega) hfind hdw this

theorem count_term_of_find_some {sep : List Nat} :
    ∀ (n : Nat) (l : List Nat) (p : Nat), l.length ≤ n → find_term sep l = some p →
      count_terminators sep l = 1 + count_terminators sep (l.drop (p + sep.length)) := by
  intro n
  induction n with
  | zero =>
    intro l p hlen hfind
    obtain ⟨hw, hple, -, -⟩ := find_term_some_le hfind
    omega
  | succ m ih =>
    intro l p hlen hfind
    obtain ⟨hw, hple, -, -⟩ := find_term_some_le hfind
    have hge : sep.length ≤ l.length := by omega
    by_cases hs : subslice l 0 sep.length = sep
    · rw [find_term_zero hw hge hs] at hfind
      have hp0 : p = 0 := by
        cases hfind
        rfl
      subst hp0
      rw [count_term_step hw hge, if_pos hs]
      simp
    · rw [find_term_step hw hge hs, Option.map_eq_some'] at hfind
      obtain ⟨p', hp', rfl⟩ := hfind
      rw [count_term_step hw hge, if_neg hs,
        ih (l.drop sep.length) p' (by rw [List.length_drop]; omega) hp']
      rw [List.drop_drop]
      have he : sep.length + (p' + sep.length) = p' + sep.length + sep.length := by omega
      rw [he]
      omega

theorem ends_of_find_some {sep : List Nat} :
    ∀ (n : Nat) (l : List Nat) (p : Nat), l.length ≤ n → find_term sep l = some p →
      (l.drop (p + sep.length) = [] → ends_with_terminator sep l) ∧
      (l.drop (p + sep.length) ≠ [] →
        (ends_with_terminator sep l ↔ ends_with_terminator sep (l.drop (p + sep.length)))) := by
  intro n
  induction n with
  | zero =>
    intro l p hlen hfind
    obtain ⟨hw, hple, -, -⟩ := find_term_some_le hfind
    omega
  | succ m ih =>
    intro l p hlen hfind
    obtain ⟨hw, hple, hsl, hdvd⟩ := find_term_some_le hfind
    have hge : sep.length ≤ l.length := by omega
    by_cases hs : subslice l 0 sep.length = sep
    · rw [find_term_zero hw hge hs] at hfind
      have hp0 : p = 0 := by
        cases hfind
        rfl
      subst hp0
      rw [Nat.zero_add]
      constructor
      · intro hstop
        have hlw : l.length = sep.length := by
          have := congrArg List.length hstop
          rw [List.length_drop] at this
          simp at this
          omega
        refine ⟨List.length_pos.mp (by omega), by rw [hlw], ?_⟩
        rw [hlw, Nat.sub_self, List.drop_zero]
        unfold subslice at hs
        rw [List.drop_zero, Nat.sub_zero] at hs
        rw [← hs, List.take_of_length_le (by omega)]
      · intro hne
        exact ends_with_drop hw hge hne
    · rw [find_term_step hw hge hs, Option.map_eq_some'] at hfind
      obtain ⟨p', hp', rfl⟩ := hfind
      have hdw : l.drop sep.length ≠ [] := by
        obtain ⟨-, hple', -, -⟩ := find_term_some_le hp'
        rw [List.length_drop] at hple'
        intro he
        have := congrArg List.length he
        rw [List.length_drop] at this
        simp at this
        omega
      have hbridge := ends_with_drop hw hge hdw
      have hih := ih (l.drop sep.length) p' (by rw [List.length_drop]; omega) hp'
      have hdd : (l.drop sep.length).drop (p' + sep.length) =
          l.drop (p' + sep.length + sep.length) := by
        rw [List.drop_drop]
        congr 1
        omega
      rw [hdd] at hih
      constructor
      · intro hstop
        exact hbridge.mpr (hih.1 hstop)
      · intro hne
        exact hbridge.trans (hih.2 hne)

theorem decode_text_segments_loop_fuel (encoding : TextEncoding) :
    ∀ (fuel1 fuel2 : Nat) (l : List Nat), l.length < fuel1 → l.length < fuel2 →
      decode_text_segments_loop encoding fuel1 l =
        decode_text_segments_loop encoding fuel2 l := by
  intro fuel1
  induction fuel1 with
  | zero =>
    intro fuel2 l h1 _
    omega
  | succ m ih =>
    intro fuel2 l h1 h2
    cases fuel2 with
    | zero => omega
    | succ n =>
      simp only [decode_text_segments_loop]
      split
      case h_1 pos heq =>
        obtain ⟨hw, hple, -, -⟩ := find_term_some_le heq
        have hlt1 : (l.drop (pos + encoding.get_trailing_null_slice.length)).length < m := by
          rw [List.length_drop]
          omega
        have hlt2 : (l.drop (pos + encoding.get_trailing_null_slice.length)).length < n := by
          rw [List.length_drop]
          omega
        simp only [ih n (l.drop (pos + encoding.get_trailing_null_slice.length)) hlt1 hlt2]
      case h_2 heq => rfl

theorem decode_text_segments_loop_count (encoding : TextEncoding) :
    ∀ (fuel : Nat) (l : List Nat) (segs : List String),
      l.length < fuel →
      decode_text_segments_loop encoding fuel l = .ok segs →
      segs.length = count_terminators encoding.get_trailing_null_slice l +
        (if l ≠ [] ∧ ¬ ends_with_terminator encoding.get_trailing_null_slice l then 1
         else 0) := by
  intro fuel
  induction fuel with
  | zero =>
    intro l segs hlen h
    omega
  | succ m ih =>
    intro l segs hlen h
    have hw : 0 < encoding.get_trailing_null_slice.length := sep_len_pos encoding
    simp only [decode_text_segments_loop] at h
    split at h
    case h_1 pos heq =>
      rcases hseg : decode_text_segment encoding (l.take pos) with s | e | _
      rotate_left
      · rw [hseg] at h
        simp [Res.bind] at h
      · rw [hseg] at h
        simp [Res.bind] at h
      rw [hseg] at h
      simp only [Res.bind] at h
      rcases hloop : decode_text_segments_loop encoding m
          (l.drop (pos + encoding.get_trailing_null_slice.length)) with rest | e | _
      rotate_left
      · rw [hloop] at h
        simp [Res.map] at h
      · rw [hloop] at h
        simp [Res.map] at h
      rw [hloop] at h
      simp only [Res.map] at h
      cases h
      obtain ⟨-, hple, -, -⟩ := find_term_some_le heq
      have hlt : (l.drop (pos + encoding.get_trailing_null_slice.length)).length < m := by
        rw [List.length_drop]
        omega
      have hrest := ih _ rest hlt hloop
      have hcount := count_term_of_find_some l.length l pos (Nat.le_refl _) heq
      have hends := ends_of_find_some l.length l pos (Nat.le_refl _) heq
      have hlne : l ≠ [] := by
        intro he
        rw [he] at hple
        simp only [List.length_nil] at hple
        omega
      have hc0 : count_terminators encoding.get_trailing_null_slice ([] : List Nat) = 0 :=
        count_term_small (by simpa using hw)
      by_cases hstop : l.drop (pos + encoding.get_trailing_null_slice.length) = []
      · have hEl := hends.1 hstop
        have hr0 : rest.length = 0 := by
          rw [hstop, hc0] at hrest
          simpa using hrest
        have hcl : count_terminators encoding.get_trailing_null_slice l = 1 := by
          rw [hstop, hc0] at hcount
          omega
        rw [List.length_cons, hr0, hcl,
          if_neg (fun hand => hand.2 hEl : ¬(l ≠ [] ∧
            ¬ ends_with_terminator encoding.get_trailing_null_slice l))]
      · have hiff := hends.2 hstop
        rw [List.length_cons, hcount, hrest]
        by_cases hE : ends_with_terminator encoding.get_trailing_null_slice
            (l.drop (pos + encoding.get_trailing_null_slice.length))
        · rw [if_neg (fun hand => hand.2 hE : ¬(_ ≠ [] ∧ ¬ ends_with_terminator _ _)),
            if_neg (fun hand => hand.2 (hiff.mpr hE) : ¬(l ≠ [] ∧
              ¬ ends_with_terminator encoding.get_trailing_null_slice l))]
          omega
        · rw [if_pos ⟨hstop, hE⟩, if_pos ⟨hlne, fun hEl => hE (hiff.mp hEl)⟩]
          omega
    case h_2 heq =>
      split at h
      case isTrue hnil =>
        cases h
        subst hnil
        rw [count_term_small (by simpa using hw)]
        simp
      case isFalse hnil =>
        rcases hseg : decode_text_segment encoding l with s | e | _
        rotate_left
        · rw [hseg] at h
          simp [Res.map] at h
        · rw [hseg] at h
          simp [Res.map] at h
        rw [hseg] at h
        simp only [Res.map] at h
        cases h
        rw [count_term_zero_of_none hw l.length l (Nat.le_refl _) heq]
        rw [if_pos ⟨hnil, not_ends_of_find_none hw l.length l (Nat.le_refl _) heq hnil⟩]
        simp

/-! ## Claim theorems -/

theorem and_shift_lt {x m s n : Nat} (h : m / 2 ^ s < 2 ^ n) : (x &&& m) >>> s < 2 ^ n := by
  rw [Nat.shiftRight_eq_div_pow]
  exact Nat.lt_of_le_of_lt (Nat.div_le_div_right Nat.and_le_right) h

theorem and_shift3_lt_of_lt {x m : Nat} (hx : x < 2 ^ 31) : (x &&& m) >>> 3 < 2 ^ 28 := by
  rw [Nat.shiftRight_eq_div_pow]
  apply Nat.lt_of_le_of_lt (Nat.div_le_div_right Nat.and_le_left)
  rw [Nat.div_lt_iff_lt_mul (by norm_num : 0 < 2 ^ 3)]
  calc x < 2 ^ 31 := hx
    _ = 2 ^ 28 * 2 ^ 3 := by norm_num

/-- Claim C8: for a synchsafe input whose four bytes each fit in seven
bits, `synchsafe_u32_to_u32` yields a value below `2 ^ 28`, and decoding
`0x7F7F7F7F` yields exactly `0x0FFFFFFF`. -/
theorem id3_c8_synchsafe_bounds (b0 b1 b2 b3 : Nat)
    (h0 : b0 ≤ 0x7F) (h1 : b1 ≤ 0x7F) (h2 : b2 ≤ 0x7F) (h3 : b3 ≤ 0x7F) :
    synchsafe_u32_to_u32 (b0 * 0x1000000 + b1 * 0x10000 + b2 * 0x100 + b3) < 2 ^ 28 ∧
    synchsafe_u32_to_u32 0x7F7F7F7F = 0x0FFFFFFF := by
  refine ⟨?_, by decide⟩
  have hx : b0 * 0x1000000 + b1 * 0x10000 + b2 * 0x100 + b3 < 2 ^ 31 := by
    have : (2 : Nat) ^ 31 = 0x80000000 := by norm_num
    omega
  unfold synchsafe_u32_to_u32
  apply Nat.or_lt_two_pow
  · apply Nat.or_lt_two_pow
    · apply Nat.or_lt_two_pow
      · exact and_shift3_lt_of_lt hx
      · apply Nat.or_lt_two_pow
        · exact and_shift_lt (by norm_num)
        · exact and_shift3_lt_of_lt hx
    · apply Nat.or_lt_two_pow
      · exact and_shift_lt (by norm_num)
      · exact and_shift_lt (by norm_num)
  · apply Nat.or_lt_two_pow
    · exact Nat.lt_of_le_of_lt Nat.and_le_right (by norm_num)
    · exact and_shift_lt (by norm_num)

/-- Witness for `id3_c8_synchsafe_bounds` at the all-`0x7F` input. -/
theorem id3_c8_synchsafe_bounds_witness :
    synchsafe_u32_to_u32 (0x7F * 0x1000000 + 0x7F * 0x10000 + 0x7F * 0x100 + 0x7F) < 2 ^ 28 ∧
    synchsafe_u32_to_u32 0x7F7F7F7F = 0x0FFFFFFF :=
  id3_c8_synchsafe_bounds 0x7F 0x7F 0x7F 0x7F (by decide) (by decide) (by decide) (by decide)

/-- Claim C1: the `GROUPING_IDENTITY` path consumes the group byte but the
frame-size adjustment `frame_size.saturating_sub(1)` discards its result.
For a TIT2 frame of declared size 2 with the grouping flag and group byte
7, the body decoded is the full 2 declared bytes (`[0x03, 0x41]`, decoding
to `["A"]` rather than the 1-byte body `[0x03]` decoding to `[]`), and the
cursor lands at 13 = boundary + 11 + size, not boundary + 10 + size = 12. -/
theorem id3_c1_grouping_size_unchanged :
    v24_next (frame_id "TIT2" ++ [0, 0, 0, 2, 0, 0x40, 7, 0x03, 0x41]) 0 =
      .emit (.ok { data := .TIT2 ["A"], group := some 7 }) 13 ∧
    (13 : Nat) ≠ 0 + 10 + 2 := by
  exact ⟨by rfl, by decide⟩

/-- Claim C2: the UTF-16BE code-unit reassembly computes
`(u16::from(c[1]) << 8) & u16::from(c[0])`, a bitwise AND of disjoint bit
ranges that is always zero, so the segment `[0x00, 0x41]` decodes to a NUL
character instead of `"A"` = `(0x00 << 8) | 0x41`; the odd-length check
(`InvalidUtf16`) does hold. -/
theorem id3_c2_utf16be_unit_and_zero :
    decode_text_segment .UTF16BE [0x00, 0x41] = .ok "\x00" ∧
    ("\x00" : String) ≠ "A" ∧
    ((0x00 <<< 8) ||| 0x41 : Nat) = 0x41 ∧
    decode_text_segment .UTF16BE [0x41] = .err .InvalidUtf16 := by
  exact ⟨by decide, by decide, by decide, by decide⟩

/-- Claim C3: for a 10-byte source whose first three bytes are not
`"ID3"`, `parse_source` reaches the `unimplemented!()` footer-search
placeholder and panics; the `NoTag` return is dead code behind
`if true`. -/
theorem id3_c3_no_tag_panics :
    subslice (List.replicate 10 0x41) 0 3 ≠ frame_id "ID3" ∧
    parse_source (List.replicate 10 0x41) = .panic := by
  exact ⟨by decide, by decide⟩

/-- Claim C4: a frame whose declared size is zero (identifier `TIT2`, not
all-zero) makes the iterator panic: `decode_text_frame` indexes `frame[0]`
of the empty body, and no `EmptyFrame` error variant exists in
`FrameParseErrorReason`. -/
theorem id3_c4_zero_size_frame_panics :
    synchsafe_u32_to_u32 (read_u32_be (frame_id "TIT2" ++ [0, 0, 0, 0, 0, 0]) 4) = 0 ∧
    v24_next (frame_id "TIT2" ++ [0, 0, 0, 0, 0, 0]) 0 = .panic := by
  exact ⟨by decide, by rfl⟩

/-- Claim C5: a frame carrying the compression, encryption and
unsynchronisation format flags (flag word `0x000E`) is decoded normally —
the iterator emits the successfully decoded frame and advances, with no
`UnsupportedFrameFeature` error (no such variant exists in
`FrameParseErrorReason`). -/
theorem id3_c5_unsupported_flags_ignored :
    v24_next (frame_id "TIT2" ++ [0, 0, 0, 1, 0, 0x0E, 0x03]) 0 =
      .emit (.ok { data := .TIT2 [], group := none }) 11 := by
  rfl

/-- Claim C7: `decode_text_map_frame` compares and slices with positions
computed relative to `frame[1..]` but applied to `frame`, so the body
`[0x00, 0x61, 0x00, 0x62]` (ISO-8859-1 `"a\x00b"`) yields the entry
`("", "\x00b")` instead of `("a", "b")`; and the body `[0x00, 0x61, 0x00]`
(final key `"a"` whose terminator is the last byte) yields `("", "\x00")`
instead of `MissingValueInMapFrame`. -/
theorem id3_c7_map_frame_off_by_one :
    decode_text_map_frame [0x00, 0x61, 0x00, 0x62] = .ok [("", "\x00b")] ∧
    (Res.ok [("", "\x00b")] : Res FrameParseErrorReason (List (String × String))) ≠
      .ok [("a", "b")] ∧
    decode_text_map_frame [0x00, 0x61, 0x00] = .ok [("", "\x00")] := by
  exact ⟨by decide, by decide, by decide⟩

/-- Claim C6 is refuted at a TIT2 frame of declared size 5 with the
`DATA_LENGTH_INDICATOR` flag and a data-length field decoding to 1: the
iterator slices a 1-byte body (the data-length value, not the declared
size 5) and leaves the cursor at 15 = 10 + 4 + 1, not 10 + 5 + 4 = 19. -/
theorem id3_c6_counterexample :
    v24_next (frame_id "TIT2" ++ [0, 0, 0, 5, 0, 0x01, 0, 0, 0, 1, 0x03]) 0 =
      .emit (.ok { data := .TIT2 [], group := none }) 15 ∧
    (15 : Nat) ≠ 10 + 5 + 4 := by
  exact ⟨by rfl, by decide⟩

/-- Claim C9 is refuted at the empty payload: `decode_text_frame [0x03]`
(UTF-8, empty payload) returns zero segments, while the claimed count —
terminator occurrences (0) plus one because the payload does not end with
a terminator — is 1. -/
theorem id3_c9_counterexample :
    decode_text_frame [0x03] = .ok ([] : List String) ∧
    count_terminators (TextEncoding.UTF8).get_trailing_null_slice [] = 0 ∧
    ¬ ends_with_terminator (TextEncoding.UTF8).get_trailing_null_slice [] ∧
    (([] : List String).length ≠ 0 + 1) := by
  exact ⟨by decide, by decide, by decide, by decide⟩

theorem try_from_encoding_byte (e : TextEncoding) :
    TextEncoding.try_from (encoding_byte e) = .ok e := by
  cases e <;> rfl

/-- Claim C9 (amended): for every text frame body with a valid encoding
byte whose decoding succeeds, the number of decoded segments equals the
number of terminator occurrences (aligned chunks of the encoding's width
equal to the terminator) in the payload, plus one if the payload is
non-empty and does not end with a terminator; the empty payload yields
zero segments. -/
theorem id3_c9_amended_segment_count (enc : TextEncoding) (payload : List Nat)
    (segs : List String)
    (h : decode_text_frame (encoding_byte enc :: payload) = .ok segs) :
    segs.length = count_terminators enc.get_trailing_null_slice payload +
      (if payload ≠ [] ∧ ¬ ends_with_terminator enc.get_trailing_null_slice payload then 1
       else 0) := by
  have h2 : (TextEncoding.try_from (encoding_byte enc)).bind
      (fun encoding => decode_text_segments encoding payload) = .ok segs := h
  rw [try_from_encoding_byte] at h2
  simp only [Res.bind] at h2
  unfold decode_text_segments at h2
  exact decode_text_segments_loop_count enc (payload.length + 1) payload segs
    (Nat.lt_succ_self _) h2

/-- Witness for `id3_c9_amended_segment_count` at the ISO-8859-1 body
`[0x00, 0x61, 0x00, 0x62]`: two segments, one terminator, no trailing
terminator. -/
theorem id3_c9_amended_segment_count_witness :
    (["a", "b"] : List String).length =
      count_terminators (TextEncoding.ISO8859).get_trailing_null_slice [0x61, 0x00, 0x62] +
      (if ([0x61, 0x00, 0x62] : List Nat) ≠ [] ∧
          ¬ ends_with_terminator (TextEncoding.ISO8859).get_trailing_null_slice
            [0x61, 0x00, 0x62] then 1
       else 0) := by
  have h : decode_text_frame (encoding_byte .ISO8859 :: [0x61, 0x00, 0x62]) =
      .ok ["a", "b"] := by decide
  exact id3_c9_amended_segment_count .ISO8859 [0x61, 0x00, 0x62] ["a", "b"] h

/-- Claim C10: decoding a non-empty, even-length UTF-16-with-BOM segment
never validates that a byte-order mark is present: when the first two
bytes are not exactly `[0xFE, 0xFF]` the byte pairs are read as
little-endian code units (no error is raised for the missing mark), and in
either branch the first code unit is dropped before conversion. -/
theorem id3_c10_utf16bom_no_validation (l : List Nat) (h1 : l ≠ [])
    (h2 : l.length % 2 = 0) :
    (l.take 2 ≠ [0xFE, 0xFF] →
      decode_text_segment .UTF16BOM l =
        string_from_utf16 (((byte_pairs l).map le_unit).drop 1)) ∧
    (l.take 2 = [0xFE, 0xFF] →
      decode_text_segment .UTF16BOM l =
        string_from_utf16 (((byte_pairs l).map be_unit_and).drop 1)) := by
  have hpos : 0 < l.length := List.length_pos.mpr h1
  have hlen2 : 2 ≤ l.length := by omega
  unfold decode_text_segment
  rw [if_neg (by omega), if_neg (by omega)]
  constructor
  · intro hbom
    rw [if_neg hbom]
  · intro hbom
    rw [if_pos hbom]

/-- Witness for `id3_c10_utf16bom_no_validation` at the BOM-less
little-endian segment `[0x48, 0x00, 0x69, 0x00]` (`"Hi"`): the leading
unit `0x48` is dropped and the result is `"i"`. -/
theorem id3_c10_utf16bom_no_validation_witness :
    decode_text_segment .UTF16BOM [0x48, 0x00, 0x69, 0x00] = .ok "i" := by
  have h := (id3_c10_utf16bom_no_validation [0x48, 0x00, 0x69, 0x00] (by decide)
    (by decide)).1 (by decide)
  rw [h]
  decide

/-- Claim C6 (amended): for every frame whose header has the
`DATA_LENGTH_INDICATOR` format flag set and the `GROUPING_IDENTITY` flag
clear, whenever the iterator emits an item the four bytes following the
frame header are consumed as a synchsafe length that REPLACES the declared
frame size: the body routed to the dispatcher is the slice of that length
starting after those four bytes, and the cursor advances by exactly
`10 + 4 + length`. -/
theorem id3_c6_amended_dli_replaces_size (content : List Nat) (cursor : Nat)
    (item : Res FrameParseError Frame) (c' : Nat)
    (hg : read_u16_be content (cursor + 8) &&& 0x0040 = 0)
    (hd : read_u16_be content (cursor + 8) &&& 0x0001 ≠ 0)
    (h : v24_next content cursor = .emit item c') :
    c' = cursor + 10 + 4 + synchsafe_u32_to_u32 (read_u32_be content (cursor + 10)) ∧
    (∀ data : FrameData,
      frame_dispatch (subslice content cursor (cursor + 4))
          (subslice content (cursor + 10 + 4)
            (cursor + 10 + 4 + synchsafe_u32_to_u32 (read_u32_be content (cursor + 10)))) =
        .ok data →
      item = .ok { data, group := none }) ∧
    (∀ reason : FrameParseErrorReason,
      frame_dispatch (subslice content cursor (cursor + 4))
          (subslice content (cursor + 10 + 4)
            (cursor + 10 + 4 + synchsafe_u32_to_u32 (read_u32_be content (cursor + 10)))) =
        .err reason →
      item = .err { name := subslice content cursor (cursor + 4), reason }) := by
  simp only [v24_next] at h
  by_cases hA : content.length - cursor < 10
  · rw [if_pos hA] at h
    cases h
  rw [if_neg hA] at h
  by_cases hN : subslice content cursor (cursor + 4) = [0, 0, 0, 0]
  · rw [if_pos hN] at h
    cases h
  rw [if_neg hN, if_neg (not_not_intro hg)] at h
  unfold v24_next_dli at h
  rw [if_pos hd] at h
  by_cases hB : cursor + 10 + 4 ≤ content.length
  · rw [if_pos hB] at h
    unfold v24_next_body at h
    by_cases hS : cursor + 10 + 4 + synchsafe_u32_to_u32 (read_u32_be content (cursor + 10)) ≤
        content.length
    · rw [if_pos hS] at h
      rcases hdisp : frame_dispatch (subslice content cursor (cursor + 4))
          (subslice content (cursor + 10 + 4)
            (cursor + 10 + 4 + synchsafe_u32_to_u32 (read_u32_be content (cursor + 10)))) with
        data | reason | _
      · rw [hdisp] at h
        cases h
        refine ⟨rfl, ?_, ?_⟩
        · intro data2 hd2
          cases hd2
          rfl
        · intro reason2 hr2
          cases hr2
      · rw [hdisp] at h
        cases h
        refine ⟨rfl, ?_, ?_⟩
        · intro data2 hd2
          cases hd2
        · intro reason2 hr2
          cases hr2
          rfl
      · rw [hdisp] at h
        cases h
    · rw [if_neg hS] at h
      cases h
  · rw [if_neg hB] at h
    cases h

/-- Witness for `id3_c6_amended_dli_replaces_size` at a concrete TIT2
frame of declared size 5 whose data-length field decodes to 1: the cursor
lands at 15 = 0 + 10 + 4 + 1. -/
theorem id3_c6_amended_dli_replaces_size_witness :
    (15 : Nat) = 0 + 10 + 4 +
      synchsafe_u32_to_u32
        (read_u32_be (frame_id "TIT2" ++ [0, 0, 0, 5, 0, 0x01, 0, 0, 0, 1, 0x03]) (0 + 10)) := by
  have h : v24_next (frame_id "TIT2" ++ [0, 0, 0, 5, 0, 0x01, 0, 0, 0, 1, 0x03]) 0 =
      .emit (.ok { data := .TIT2 [], group := none }) 15 := by rfl
  exact (id3_c6_amended_dli_replaces_size _ 0 _ 15 (by decide) (by decide) h).1
